import Mathlib

/-!
Verification of the password-manager core of this repository
(`src/project3.py`, class `PasswordManager`) against its specification.

Modelling conventions:
* Python `str` values are shallowly embedded as `List Char`; `str.lower()`
  becomes `pyLower` (`List.map Char.toLower`).
* The Python `dict` used for `self.passwords` is insertion-ordered with
  unique keys; it is embedded as an association list `Vault` together with
  `dictSet` / `dictGet` / `dictDel` reproducing `d[k] = v`, lookup and
  `del d[k]` (assignment to an existing key keeps its position, a new key is
  appended, matching CPython dict semantics).
* Randomness (`secrets.choice`, `secrets.SystemRandom().shuffle`) is embedded
  by passing the stream of random draws explicitly: theorems quantify over
  all draw functions.
* File I/O is embedded by passing the relevant file content in and returning
  the written content; a possible write failure is an explicit
  `WriteOutcome` parameter.
-/

/-- Python `s.lower()` on the `List Char` embedding of `str`. -/
def pyLower (s : List Char) : List Char := s.map Char.toLower

/-- Helper for `containsSub`: does `needle` occur at the head of `hay`?
(the `List Char` analogue of Python `hay.startswith(needle)`). -/
def isPrefixList : List Char → List Char → Bool
  | [], _ => true
  | _ :: _, [] => false
  | a :: as, b :: bs => a == b && isPrefixList as bs

/-- Python substring containment `needle in hay` for `str` operands:
true iff `needle` occurs contiguously inside `hay`.  In particular the
empty needle is contained in every string, as in Python. -/
def containsSub (needle : List Char) : List Char → Bool
  | [] => needle.isEmpty
  | c :: tl => isPrefixList needle (c :: tl) || containsSub needle tl

/-- Python `string.ascii_lowercase`. -/
def ascii_lowercase : List Char := "abcdefghijklmnopqrstuvwxyz".toList

/-- Python `string.ascii_uppercase`. -/
def ascii_uppercase : List Char := "ABCDEFGHIJKLMNOPQRSTUVWXYZ".toList

/-- Python `string.ascii_letters` (lowercase followed by uppercase). -/
def ascii_letters : List Char := ascii_lowercase ++ ascii_uppercase

/-- Python `string.digits`. -/
def digits : List Char := "0123456789".toList

/-- Python `string.punctuation`: the 32 ASCII punctuation characters,
codes 33-47, 58-64, 91-96 and 123-126 (given by code to keep the
source text free of escape issues). -/
def punct_chars : List Char :=
  ((List.range 15).map (fun i => 33 + i) ++ (List.range 7).map (fun i => 58 + i)
    ++ (List.range 6).map (fun i => 91 + i)
    ++ (List.range 4).map (fun i => 123 + i)).map Char.ofNat

/-- One stored secret, the value part of an entry of `self.passwords`:
the Python dict `\x7b'service': ..., 'username': ..., 'password': ...\x7d`
built in `PasswordManager.add_password` (src/project3.py lines 132-136). -/
structure CredRecord where
  service : List Char
  username : List Char
  password : List Char
deriving DecidableEq

instance : Inhabited CredRecord := ⟨⟨[], [], []⟩⟩

/-- The in-memory vault `self.passwords`: an insertion-ordered mapping from
the normalized (lowercased) service key to the stored record. -/
abbrev Vault := List (List Char × CredRecord)

/-- Python `key in d` on the vault dict. -/
def dictContains (d : Vault) (k : List Char) : Bool :=
  d.any (fun p => p.1 == k)

/-- Python `d[k] = v` on an insertion-ordered dict: an existing key keeps
its position and gets the new value, a fresh key is appended at the end. -/
def dictSet (d : Vault) (k : List Char) (v : CredRecord) : Vault :=
  if dictContains d k then d.map (fun p => if p.1 == k then (k, v) else p)
  else d ++ [(k, v)]

/-- Python `d[k]` lookup (as an `Option`, `none` when the key is absent). -/
def dictGet (d : Vault) (k : List Char) : Option CredRecord :=
  (d.find? (fun p => p.1 == k)).map Prod.snd

/-- Python `del d[k]`: removes the entry stored under `k`. -/
def dictDel (d : Vault) (k : List Char) : Vault :=
  d.filter (fun p => !(p.1 == k))

/-- The keys of the vault, in insertion order. -/
def vaultKeys (d : Vault) : List (List Char) := d.map Prod.fst

/-! ## SHA-256 (model of the external `hashlib` dependency)

`PasswordManager._hash_password` (src/project3.py lines 46-48) delegates to
`hashlib.sha256(password.encode()).hexdigest()`.  `hashlib` is an external
library, absent from `src/`, so it is modelled here: the definitions below
are a complete executable FIPS 180-4 SHA-256 over byte lists, matching the
standard test vectors. -/

/-- Truncation to a 32-bit word. -/
def w32 (x : Nat) : Nat := x % 4294967296

/-- Right rotation of a 32-bit word by `n` bits. -/
def rotr (n x : Nat) : Nat := w32 ((x >>> n) ||| (x <<< (32 - n)))

/-- Modelled from the spec: the SHA-256 round constants (`hashlib` is
external to `src/`). -/
def sha_k : List Nat :=
  [1116352408, 1899447441, 3049323471, 3921009573, 961987163, 1508970993,
   2453635748, 2870763221, 3624381080, 310598401, 607225278, 1426881987,
   1925078388, 2162078206, 2614888103, 3248222580, 3835390401, 4022224774,
   264347078, 604807628, 770255983, 1249150122, 1555081692, 1996064986,
   2554220882, 2821834349, 2952996808, 3210313671, 3336571891, 3584528711,
   113926993, 338241895, 666307205, 773529912, 1294757372, 1396182291,
   1695183700, 1986661051, 2177026350, 2456956037, 2730485921, 2820302411,
   3259730800, 3345764771, 3516065817, 3600352804, 4094571909, 275423344,
   430227734, 506948616, 659060556, 883997877, 958139571, 1322822218,
   1537002063, 1747873779, 1955562222, 2024104815, 2227730452, 2361852424,
   2428436474, 2756734187, 3204031479, 3329325298]

/-- The SHA-256 initial hash state. -/
def sha_h0 : List Nat :=
  [1779033703, 3144134277, 1013904242, 2773480762,
   1359893119, 2600822924, 528734635, 1541459225]

/-- SHA-256 message padding: append `0x80`, zero bytes up to 56 mod 64,
then the bit length as 8 big-endian bytes. -/
def shaPad (m : List Nat) : List Nat :=
  m ++ [128] ++ List.replicate ((119 - m.length % 64) % 64) 0
    ++ (List.range 8).map (fun i => ((m.length * 8) >>> (8 * (7 - i))) % 256)

/-- Split a padded byte list into 64-byte blocks of 16 big-endian words. -/
def shaBlocks (p : List Nat) : List (List Nat) :=
  (List.range (p.length / 64)).map (fun b =>
    (List.range 16).map (fun j =>
      p.getD (64 * b + 4 * j) 0 * 16777216 + p.getD (64 * b + 4 * j + 1) 0 * 65536
        + p.getD (64 * b + 4 * j + 2) 0 * 256 + p.getD (64 * b + 4 * j + 3) 0))

/-- The SHA-256 message schedule: 64 words extended from a 16-word block. -/
def shaSchedule (block : List Nat) : List Nat :=
  (List.range 64).foldl (fun ws t =>
    if t < 16 then ws ++ [block.getD t 0]
    else
      let w15 := ws.getD (t - 15) 0
      let w2 := ws.getD (t - 2) 0
      let s0 := (rotr 7 w15) ^^^ (rotr 18 w15) ^^^ (w15 >>> 3)
      let s1 := (rotr 17 w2) ^^^ (rotr 19 w2) ^^^ (w2 >>> 10)
      ws ++ [w32 (ws.getD (t - 16) 0 + s0 + ws.getD (t - 7) 0 + s1)]) []

/-- One SHA-256 compression round on the 8-word working state. -/
def shaRound (ws : List Nat) (st : List Nat) (t : Nat) : List Nat :=
  let a := st.getD 0 0
  let b := st.getD 1 0
  let c := st.getD 2 0
  let d := st.getD 3 0
  let e := st.getD 4 0
  let f := st.getD 5 0
  let g := st.getD 6 0
  let h := st.getD 7 0
  let s1 := (rotr 6 e) ^^^ (rotr 11 e) ^^^ (rotr 25 e)
  let ch := (e &&& f) ^^^ ((4294967295 ^^^ e) &&& g)
  let t1 := w32 (h + s1 + ch + sha_k.getD t 0 + ws.getD t 0)
  let s0 := (rotr 2 a) ^^^ (rotr 13 a) ^^^ (rotr 22 a)
  let mj := (a &&& b) ^^^ (a &&& c) ^^^ (b &&& c)
  let t2 := w32 (s0 + mj)
  [w32 (t1 + t2), a, b, c, w32 (d + t1), e, f, g]

/-- SHA-256 compression of one block into the hash state. -/
def shaCompress (st : List Nat) (block : List Nat) : List Nat :=
  let ws := shaSchedule block
  let fin := (List.range 64).foldl (shaRound ws) st
  List.zipWith (fun x y => w32 (x + y)) st fin

/-- SHA-256 digest (8 words) of a byte list. -/
def sha256 (m : List Nat) : List Nat :=
  (shaBlocks (shaPad m)).foldl shaCompress sha_h0

/-- Lowercase hex digit. -/
def hexChar (n : Nat) : Char := "0123456789abcdef".toList.getD n 'x'

/-- Eight lowercase hex digits of a 32-bit word, most significant first. -/
def wordHex (w : Nat) : List Char :=
  (List.range 8).map (fun i => hexChar ((w >>> (4 * (7 - i))) % 16))

/-- Python `hashlib.sha256(m).hexdigest()` on a byte list. -/
def sha256hex (m : List Nat) : List Char := ((sha256 m).map wordHex).flatten

/-- `PasswordManager._hash_password` (src/project3.py lines 46-48):
SHA-256 hexdigest of the UTF-8 encoding of the password (for the ASCII
passwords considered here `encode()` is the character codes). -/
def _hash_password (password : List Char) : List Char :=
  sha256hex (password.map Char.toNat)

/-- `PasswordManager.setup_master_password` (src/project3.py lines 18-44),
restricted to its observable authentication effect.  Input: the content of
the master-hash file if it exists (`stored`), and the password(s) typed at
the prompts (`master`, and `confirm`, read only on first-time setup).
Output: the function's return value and the master-hash file content after
the call (`_save_master_hash` writes `_hash_password master` only in the
first-time branch; the verify branch never writes). -/
def setup_master_password (stored : Option (List Char)) (master confirm : List Char) :
    Bool × Option (List Char) :=
  match stored with
  | some stored_hash =>
    if _hash_password master != stored_hash then (false, some stored_hash)
    else (true, some stored_hash)
  | none =>
    if master != confirm then (false, none)
    else (true, some (_hash_password master))

/-! ## CipherCodec (model of the external `cryptography.fernet` dependency)

`PasswordManager` encrypts with `Fernet` (src/project3.py lines 60-70, 80,
90), an external library absent from `src/`.  Modelled from the spec:
authenticated encryption whose tokens decrypt to the original plaintext
under the encrypting key and fail authentication under any other key
(confidentiality is not a functional property and is not modelled: the
token is a symbolic pairing of key and payload). -/

/-- Modelled from the spec: a Fernet token, the opaque ciphertext bytes
produced by `cipher.encrypt`. -/
structure FernetToken where
  key : Nat
  payload : List Char
deriving DecidableEq

/-- Decryption failure taxonomy from the spec (section 4.3). -/
inductive DecryptError where
  | authenticationFailed
  | malformed
deriving DecidableEq

/-- Modelled from the spec: `cipher.encrypt` under key `k`. -/
def fernet_encrypt (k : Nat) (p : List Char) : FernetToken := ⟨k, p⟩

/-- Modelled from the spec: `cipher.decrypt` under key `k` — returns the
plaintext when the token was produced under the same key, fails
authentication otherwise. -/
def fernet_decrypt (k : Nat) (t : FernetToken) : Except DecryptError (List Char) :=
  if t.key = k then Except.ok t.payload else Except.error DecryptError.authenticationFailed

/-! ## Serialization (model of the external `json` dependency)

`_save_passwords` serializes `self.passwords` with `json.dumps` and
`_load_passwords` parses with `json.loads` (src/project3.py lines 81, 89);
`json` is an external library absent from `src/`.  Modelled from the spec
(section 6: a lossless JSON-equivalent serialization of the mapping): an
executable self-delimiting text encoding with its exact parser, so that
the decode-of-encode round trip is a genuine theorem, not an assumption.
Strings are length-prefixed in unary (`'1'` marks, then `':'`). -/

/-- Length-prefixed encoding of one string field. -/
def encStr (s : List Char) : List Char := List.replicate s.length '1' ++ ':' :: s

/-- Encoding of one vault entry: normalized key then the three record fields. -/
def encEntry (p : List Char × CredRecord) : List Char :=
  encStr p.1 ++ encStr p.2.service ++ encStr p.2.username ++ encStr p.2.password

/-- Modelled from the spec: `json.dumps(self.passwords)` — entry count in
unary, then each entry's encoding. -/
def json_dumps (v : Vault) : List Char :=
  List.replicate v.length '1' ++ ':' :: (v.map encEntry).flatten

/-- Parse one length-prefixed string, returning it with the rest of input. -/
def parseStr (l : List Char) : Option (List Char × List Char) :=
  let n := (l.takeWhile (fun c => c == '1')).length
  match l.drop n with
  | ':' :: rest => if n ≤ rest.length then some (rest.take n, rest.drop n) else none
  | _ => none

/-- Parse one vault entry (key and three record fields). -/
def parseEntry (l : List Char) : Option ((List Char × CredRecord) × List Char) := do
  let (k, l1) ← parseStr l
  let (s, l2) ← parseStr l1
  let (u, l3) ← parseStr l2
  let (p, l4) ← parseStr l3
  some ((k, ⟨s, u, p⟩), l4)

/-- Parse exactly `n` vault entries. -/
def parseEntries : Nat → List Char → Option (Vault × List Char)
  | 0, l => some ([], l)
  | n + 1, l => do
    let (e, l1) ← parseEntry l
    let (v, l2) ← parseEntries n l1
    some (e :: v, l2)

/-- Modelled from the spec: `json.loads` of a serialized vault — `none`
models `json.loads` raising on input that is not a serialized vault. -/
def json_loads (l : List Char) : Option Vault :=
  let n := (l.takeWhile (fun c => c == '1')).length
  match l.drop n with
  | ':' :: rest =>
    match parseEntries n rest with
    | some (v, []) => some v
    | _ => none
  | _ => none

/-! ## Persistence and the credential store (src/project3.py lines 72-196) -/

/-- Whether the `open`/`write` of the vault file raises an `OSError`
(for example a full disk); an explicit parameter of the persistence model. -/
inductive WriteOutcome where
  | ok
  | ioError
deriving DecidableEq

/-- The spec's typed persistence failure (section 7). -/
inductive PersistError where
  | persistError
deriving DecidableEq

/-- Observable effect of one `_save_passwords` call: the ciphertext written
to the vault file (`none` when the write raised), whether the
`Error saving passwords` message was printed, and the error value
propagated to the caller. -/
structure SaveResult where
  file : Option FernetToken
  errorPrinted : Bool
  propagated : Option PersistError
deriving DecidableEq

/-- `PasswordManager._save_passwords` (src/project3.py lines 86-95):
serializes and encrypts the vault and writes it; the whole body is wrapped
in `try/except Exception` whose handler only prints, so a failed write
prints `Error saving passwords` and the function still returns `None` —
nothing is propagated in either branch. -/
def _save_passwords (k : Nat) (passwords : Vault) (w : WriteOutcome) : SaveResult :=
  match w with
  | WriteOutcome.ok => ⟨some (fernet_encrypt k (json_dumps passwords)), false, none⟩
  | WriteOutcome.ioError => ⟨none, true, none⟩

/-- Observable result of one `_load_passwords` call: the returned mapping
and whether the `Error loading passwords` message was printed. -/
structure LoadResult where
  passwords : Vault
  errorPrinted : Bool
deriving DecidableEq

/-- `PasswordManager._load_passwords` (src/project3.py lines 72-84):
returns `\x7b\x7d` when the vault file does not exist; otherwise decrypts and
parses it inside `try/except Exception`, whose handler prints the error and
returns `\x7b\x7d` — so both a decryption failure and a parse failure yield an
empty mapping with only a printed message. -/
def _load_passwords (k : Nat) (file : Option FernetToken) : LoadResult :=
  match file with
  | none => ⟨[], false⟩
  | some t =>
    match fernet_decrypt k t with
    | Except.error _ => ⟨[], true⟩
    | Except.ok data =>
      match json_loads data with
      | none => ⟨[], true⟩
      | some v => ⟨v, false⟩

/-! ## Password generator (src/project3.py lines 97-123)

Randomness is passed explicitly: `r` gives the successive values of
`secrets.choice` draws (`r i` selects index `r i mod class size` in the
class the source draws from, as `secrets.choice` returns a uniformly chosen
element), and `s` gives the successive values drawn by
`secrets.SystemRandom().shuffle`, which is the Fisher-Yates shuffle
(for `i` from `len-1` down to `1`, swap position `i` with position
`s i mod (i+1)`).  Theorems quantify over all `r` and `s`. -/

/-- Model of `secrets.choice(cls)` given the random draw `rnd`: a uniformly
chosen element of `cls`, here the element at index `rnd mod cls.length`. -/
def pyChoice (cls : List Char) (rnd : Nat) : Char := cls.getD (rnd % cls.length) '?'

/-- Exchange the elements at positions `i` and `j` (`x[i], x[j] = x[j], x[i]`). -/
def listSwap (l : List Char) (i j : Nat) : List Char :=
  match l[i]?, l[j]? with
  | some a, some b => (l.set i b).set j a
  | _, _ => l

/-- The Fisher-Yates loop of `random.shuffle`, from position `i` downward. -/
def shuffleGo (s : Nat → Nat) : Nat → List Char → List Char
  | 0, l => l
  | i + 1, l => shuffleGo s i (listSwap l (i + 1) (s (i + 1) % (i + 2)))

/-- Model of `secrets.SystemRandom().shuffle` with draw stream `s`. -/
def pyShuffle (s : Nat → Nat) (l : List Char) : List Char := shuffleGo s (l.length - 1) l

/-- The character universe `chars` built at the top of `generate_password`
(src/project3.py lines 101-106): letters, plus digits when `use_numbers`,
plus punctuation when `use_symbols`. -/
def passwordChars (use_symbols use_numbers : Bool) : List Char :=
  ascii_letters ++ (if use_numbers then digits else [])
    ++ (if use_symbols then punct_chars else [])

/-- The mandatory characters appended first by `generate_password`
(src/project3.py lines 109-115), in source order: one digit when
`use_numbers`, one punctuation character when `use_symbols`, one lowercase
and one uppercase letter. -/
def mandatoryChars (use_symbols use_numbers : Bool) (r : Nat → Nat) : List Char :=
  (if use_numbers then [pyChoice digits (r 0)] else [])
    ++ (if use_symbols then [pyChoice punct_chars (r 1)] else [])
    ++ [pyChoice ascii_lowercase (r 2), pyChoice ascii_uppercase (r 3)]

/-- The number of mandatory character classes requested: lowercase and
uppercase always, plus digits and symbols when enabled. -/
def mandatoryCount (use_symbols use_numbers : Bool) : Nat :=
  2 + (if use_numbers then 1 else 0) + (if use_symbols then 1 else 0)

/-- `PasswordManager.generate_password` (src/project3.py lines 97-123):
the mandatory characters, then `length - len(password)` fill characters
drawn from the full universe (an empty range when that difference is not
positive, exactly as in Python), then the secure shuffle.  There is no
length validation anywhere in the source function. -/
def generate_password (length : Nat) (use_symbols use_numbers : Bool)
    (r s : Nat → Nat) : List Char :=
  let chars := passwordChars use_symbols use_numbers
  let password := mandatoryChars use_symbols use_numbers r
  let password := password
    ++ (List.range (length - password.length)).map (fun i => pyChoice chars (r (4 + i)))
  pyShuffle s password

/-! ## CRUD and search operations (src/project3.py lines 125-196) -/

/-- `PasswordManager.add_password` (src/project3.py lines 125-138): when no
password is supplied the source first generates one with default arguments;
the record is stored under the lowercased service name and the vault is
saved.  Returns the new in-memory mapping and the save's effect. -/
def add_password (k : Nat) (st : Vault) (service username : List Char)
    (password : Option (List Char)) (r s : Nat → Nat) (w : WriteOutcome) :
    Vault × SaveResult :=
  let pwd := match password with
    | none => generate_password 16 true true r s
    | some p => p
  let st2 := dictSet st (pyLower service) ⟨service, username, pwd⟩
  (st2, _save_passwords k st2 w)

/-- `PasswordManager.get_password` (src/project3.py lines 140-145):
case-insensitive lookup, `None` when absent, no side effects. -/
def get_password (st : Vault) (service : List Char) : Option CredRecord :=
  dictGet st (pyLower service)

/-- Observable result of one `delete_password` call: the in-memory mapping
after the call, the save's effect when `_save_passwords` ran, and which
branch was taken (`found = false` is the `No password found` branch). -/
structure DeleteResult where
  passwords : Vault
  save : Option SaveResult
  found : Bool
deriving DecidableEq

/-- `PasswordManager.delete_password` (src/project3.py lines 157-166):
when the lowercased key is present, deletes the entry and saves; otherwise
prints `No password found` and changes nothing. -/
def delete_password (k : Nat) (st : Vault) (service : List Char) (w : WriteOutcome) :
    DeleteResult :=
  let service_key := pyLower service
  if dictContains st service_key then
    let st2 := dictDel st service_key
    ⟨st2, some (_save_passwords k st2 w), true⟩
  else ⟨st, none, false⟩

/-- `PasswordManager.update_password` (src/project3.py lines 183-196):
returns unchanged (printing `not found`) when the lowercased key is absent;
otherwise generates a password when none is supplied, overwrites the
`password` field of the stored record in place, and saves.  The last
component reports which branch ran. -/
def update_password (k : Nat) (st : Vault) (service : List Char)
    (new_password : Option (List Char)) (r s : Nat → Nat) (w : WriteOutcome) :
    Vault × Option SaveResult × Bool :=
  let service_key := pyLower service
  if dictContains st service_key then
    let pwd := match new_password with
      | none => generate_password 16 true true r s
      | some p => p
    let st2 := st.map (fun p =>
      if p.1 == service_key then (p.1, { p.2 with password := pwd }) else p)
    (st2, some (_save_passwords k st2 w), true)
  else (st, none, false)

/-- `PasswordManager.search` (src/project3.py lines 168-181): the dict
comprehension keeping the entries whose key or lowercased username contains
the lowercased query as a substring, in insertion order. -/
def search (st : Vault) (query : List Char) : Vault :=
  let query_lower := pyLower query
  st.filter (fun p =>
    containsSub query_lower p.1 || containsSub query_lower (pyLower p.2.username))

/-- The claim's wording of the search predicate (claim C9): the lowercased
service key, or the username compared case-insensitively, contains the query
as a substring. -/
def matchesQuery (query : List Char) (p : List Char × CredRecord) : Bool :=
  containsSub (pyLower query) p.1 || containsSub (pyLower query) (pyLower p.2.username)

theorem cons_set_perm (b a : Char) (t : List Char) (m : Nat) (h : t[m]? = some b) :
    (b :: t.set m a).Perm (a :: t) := by
  induction t generalizing m with
  | nil => simp at h
  | cons d s ih =>
    cases m with
    | zero =>
      simp at h
      subst h
      simpa using List.Perm.swap a d s
    | succ m =>
      simp at h
      have ihm := ih m h
      have h1 : (d :: s).set (m + 1) a = d :: s.set m a := by simp
      rw [h1]
      exact ((List.Perm.swap d b _).trans (List.Perm.cons d ihm)).trans (List.Perm.swap a d s)

theorem set_set_perm (a b : Char) (l : List Char) (i j : Nat)
    (hi : l[i]? = some a) (hj : l[j]? = some b) :
    ((l.set i b).set j a).Perm l := by
  induction l generalizing i j with
  | nil => simp at hi
  | cons c t ih =>
    cases i with
    | zero =>
      simp at hi
      subst hi
      cases j with
      | zero => simp at hj; subst hj; simp
      | succ m =>
        simp at hj
        simpa using cons_set_perm b c t m hj
    | succ n =>
      simp at hi
      cases j with
      | zero =>
        simp at hj
        subst hj
        simpa using cons_set_perm a c t n hi
      | succ m =>
        simp at hj
        simpa using List.Perm.cons c (ih n m hi hj)

theorem listSwap_perm (l : List Char) (i j : Nat) : (listSwap l i j).Perm l := by
  unfold listSwap
  cases hi : l[i]? with
  | none => exact List.Perm.refl l
  | some a =>
    cases hj : l[j]? with
    | none => exact List.Perm.refl l
    | some b => exact set_set_perm a b l i j hi hj

theorem shuffleGo_perm (s : Nat → Nat) : ∀ (n : Nat) (l : List Char), (shuffleGo s n l).Perm l
  | 0, l => List.Perm.refl l
  | n + 1, l =>
    (shuffleGo_perm s n _).trans (listSwap_perm l (n + 1) (s (n + 1) % (n + 2)))

theorem pyShuffle_perm (s : Nat → Nat) (l : List Char) : (pyShuffle s l).Perm l :=
  shuffleGo_perm s (l.length - 1) l

theorem pyChoice_mem (cls : List Char) (rnd : Nat) (h : 0 < cls.length) :
    pyChoice cls rnd ∈ cls := by
  unfold pyChoice
  have hlt : rnd % cls.length < cls.length := Nat.mod_lt _ h
  rw [List.getD_eq_getElem cls '?' hlt]
  exact List.getElem_mem _

theorem mandatoryChars_length (us un : Bool) (r : Nat → Nat) :
    (mandatoryChars us un r).length = mandatoryCount us un := by
  cases us <;> cases un <;> simp [mandatoryChars, mandatoryCount]

theorem generate_password_length (length : Nat) (us un : Bool) (r s : Nat → Nat) :
    (generate_password length us un r s).length =
      max length (mandatoryCount us un) := by
  unfold generate_password
  rw [(pyShuffle_perm s _).length_eq]
  simp [mandatoryChars_length]
  omega

theorem mem_generate_of_mem_mandatory (length : Nat) (us un : Bool) (r s : Nat → Nat)
    (c : Char) (h : c ∈ mandatoryChars us un r) :
    c ∈ generate_password length us un r s := by
  unfold generate_password
  rw [(pyShuffle_perm s _).mem_iff]
  exact List.mem_append_left _ h

theorem lower_mem_mandatoryChars (us un : Bool) (r : Nat → Nat) :
    pyChoice ascii_lowercase (r 2) ∈ mandatoryChars us un r := by
  unfold mandatoryChars
  cases us <;> cases un <;> simp

theorem upper_mem_mandatoryChars (us un : Bool) (r : Nat → Nat) :
    pyChoice ascii_uppercase (r 3) ∈ mandatoryChars us un r := by
  unfold mandatoryChars
  cases us <;> cases un <;> simp

theorem digit_mem_mandatoryChars (us : Bool) (r : Nat → Nat) :
    pyChoice digits (r 0) ∈ mandatoryChars us true r := by
  unfold mandatoryChars
  cases us <;> simp

theorem symbol_mem_mandatoryChars (un : Bool) (r : Nat → Nat) :
    pyChoice punct_chars (r 1) ∈ mandatoryChars true un r := by
  unfold mandatoryChars
  cases un <;> simp

theorem passwordChars_pos (us un : Bool) : 0 < (passwordChars us un).length := by
  cases us <;> cases un <;> decide

theorem mandatory_subset_chars (us un : Bool) (r : Nat → Nat) :
    ∀ c ∈ mandatoryChars us un r, c ∈ passwordChars us un := by
  intro c hc
  have hlow : pyChoice ascii_lowercase (r 2) ∈ ascii_letters :=
    List.mem_append_left _ (pyChoice_mem _ _ (by decide))
  have hup : pyChoice ascii_uppercase (r 3) ∈ ascii_letters :=
    List.mem_append_right _ (pyChoice_mem _ _ (by decide))
  have hdig : pyChoice digits (r 0) ∈ digits := pyChoice_mem _ _ (by decide)
  have hsym : pyChoice punct_chars (r 1) ∈ punct_chars := pyChoice_mem _ _ (by decide)
  cases us <;> cases un <;>
    simp [mandatoryChars] at hc <;>
    simp [passwordChars, List.mem_append] <;>
    rcases hc with rfl | rfl | rfl | rfl <;> tauto

theorem generate_password_subset (length : Nat) (us un : Bool) (r s : Nat → Nat) :
    ∀ c ∈ generate_password length us un r s, c ∈ passwordChars us un := by
  intro c hc
  unfold generate_password at hc
  rw [(pyShuffle_perm s _).mem_iff] at hc
  rcases List.mem_append.1 hc with h | h
  · exact mandatory_subset_chars us un r c h
  · obtain ⟨i, _, rfl⟩ := List.mem_map.1 h
    exact pyChoice_mem _ _ (passwordChars_pos us un)

theorem chars_no_digits (us : Bool) : ∀ c ∈ passwordChars us false, c ∉ digits := by
  cases us <;> decide

theorem chars_no_punct (un : Bool) : ∀ c ∈ passwordChars false un, c ∉ punct_chars := by
  cases un <;> decide

theorem find?_map_set (d : Vault) (k : List Char) (v : CredRecord)
    (h : d.any (fun p => p.1 == k) = true) :
    (d.map (fun p => if p.1 == k then (k, v) else p)).find? (fun p => p.1 == k)
      = some (k, v) := by
  induction d with
  | nil => simp at h
  | cons p t ih =>
    rw [List.any_cons] at h
    rw [List.map_cons]
    cases hpk : (p.1 == k) with
    | true =>
      rw [if_pos rfl, List.find?_cons_of_pos _ (by simp)]
    | false =>
      rw [hpk, Bool.false_or] at h
      rw [if_neg (by simp), List.find?_cons_of_neg _ (by simp [hpk])]
      exact ih h

theorem find?_append_single (d : Vault) (k : List Char) (v : CredRecord)
    (h : d.any (fun p => p.1 == k) = false) :
    (d ++ [(k, v)]).find? (fun p => p.1 == k) = some (k, v) := by
  induction d with
  | nil => exact List.find?_cons_of_pos _ (by simp)
  | cons p t ih =>
    rw [List.any_cons, Bool.or_eq_false_iff] at h
    rw [List.cons_append, List.find?_cons_of_neg _ (by simp [h.1])]
    exact ih h.2

theorem dictGet_dictSet_self (d : Vault) (k : List Char) (v : CredRecord) :
    dictGet (dictSet d k v) k = some v := by
  unfold dictGet dictSet dictContains
  cases hany : d.any (fun p => p.1 == k) with
  | true =>
    rw [if_pos rfl, find?_map_set d k v hany]
    rfl
  | false =>
    rw [if_neg (by simp), find?_append_single d k v hany]
    rfl

theorem vaultKeys_dictSet_of_contains (d : Vault) (k : List Char) (v : CredRecord)
    (h : dictContains d k = true) :
    vaultKeys (dictSet d k v) = vaultKeys d := by
  unfold dictSet
  rw [if_pos h]
  unfold vaultKeys
  rw [List.map_map]
  apply List.map_congr_left
  intro p _
  by_cases hpk : p.1 = k
  · simp [hpk]
  · simp [hpk]

theorem not_mem_keys_of_not_contains (d : Vault) (k : List Char)
    (h : dictContains d k = false) : k ∉ vaultKeys d := by
  intro hmem
  obtain ⟨p, hp, hk⟩ := List.mem_map.1 hmem
  unfold dictContains at h
  rw [Bool.eq_false_iff] at h
  apply h
  refine List.any_eq_true.2 ⟨p, hp, ?_⟩
  simp [hk]

theorem nodup_keys_dictSet (d : Vault) (k : List Char) (v : CredRecord)
    (h : (vaultKeys d).Nodup) : (vaultKeys (dictSet d k v)).Nodup := by
  cases hc : dictContains d k with
  | true => rw [vaultKeys_dictSet_of_contains d k v hc]; exact h
  | false =>
    unfold dictSet
    rw [if_neg (by simp [hc])]
    unfold vaultKeys
    rw [List.map_append]
    simp only [List.map_cons, List.map_nil]
    rw [List.nodup_append]
    refine ⟨h, List.nodup_singleton k, ?_⟩
    intro a ha hb
    simp at hb
    subst hb
    exact not_mem_keys_of_not_contains d a hc ha

theorem nodup_keys_dictDel (d : Vault) (k : List Char)
    (h : (vaultKeys d).Nodup) : (vaultKeys (dictDel d k)).Nodup := by
  unfold dictDel vaultKeys
  exact h.sublist (List.Sublist.map _ (List.filter_sublist d))

theorem dictGet_dictDel_self (d : Vault) (k : List Char) :
    dictGet (dictDel d k) k = none := by
  unfold dictGet dictDel
  rw [List.find?_eq_none.2]
  · rfl
  · intro p hp
    have h2 := (List.mem_filter.1 hp).2
    simp at h2
    simp [h2]

theorem dictContains_dictDel_self (d : Vault) (k : List Char) :
    dictContains (dictDel d k) k = false := by
  unfold dictContains dictDel
  rw [Bool.eq_false_iff]
  intro hany
  obtain ⟨p, hp, hpk⟩ := List.any_eq_true.1 hany
  have h2 := (List.mem_filter.1 hp).2
  rw [hpk] at h2
  simp at h2

theorem dictContains_iff (d : Vault) (k : List Char) :
    dictContains d k = true ↔ k ∈ vaultKeys d := by
  unfold dictContains vaultKeys
  rw [List.any_eq_true]
  constructor
  · rintro ⟨p, hp, hq⟩
    exact List.mem_map.2 ⟨p, hp, beq_iff_eq.1 hq⟩
  · intro hm
    obtain ⟨p, hp, he⟩ := List.mem_map.1 hm
    exact ⟨p, hp, by simp [he]⟩

theorem filter_map_set_eq_nil (t : Vault) (k : List Char) (v : CredRecord)
    (h : dictContains t k = false) :
    (t.map (fun p => if p.1 == k then (k, v) else p)).filter (fun p => p.1 == k) = [] := by
  have hmap : t.map (fun p => if p.1 == k then (k, v) else p) = t := by
    rw [show t.map (fun p => if p.1 == k then (k, v) else p) = t.map id by
      apply List.map_congr_left
      intro p hp
      have : ¬p.1 = k := by
        intro he
        exact not_mem_keys_of_not_contains t k h (he ▸ List.mem_map_of_mem Prod.fst hp)
      simp [this]]
    exact List.map_id t
  rw [hmap]
  rw [List.filter_eq_nil_iff]
  intro p hp
  have : ¬p.1 = k := by
    intro he
    exact not_mem_keys_of_not_contains t k h (he ▸ List.mem_map_of_mem Prod.fst hp)
  simp [this]

theorem filter_key_dictSet_length (d : Vault) (k : List Char) (v : CredRecord)
    (hnd : (vaultKeys d).Nodup) :
    ((dictSet d k v).filter (fun p => p.1 == k)).length = 1 := by
  unfold dictSet
  cases hc : dictContains d k with
  | false =>
    rw [if_neg (by simp [hc])]
    rw [List.filter_append]
    rw [show d.filter (fun p => p.1 == k) = [] from ?_]
    · simp
    · rw [List.filter_eq_nil_iff]
      intro p hp
      have : ¬p.1 = k := by
        intro he
        exact not_mem_keys_of_not_contains d k hc (he ▸ List.mem_map_of_mem Prod.fst hp)
      simp [this]
  | true =>
    rw [if_pos rfl]
    induction d with
    | nil => simp [dictContains] at hc
    | cons p t ih =>
      rw [List.map_cons]
      have hnd2 := (List.nodup_cons.1 hnd).2
      have hpnotin := (List.nodup_cons.1 hnd).1
      cases hpk : (p.1 == k) with
      | true =>
        rw [if_pos rfl]
        have hck : dictContains t k = false := by
          rw [Bool.eq_false_iff]
          intro hct
          apply hpnotin
          rw [show p.1 = k from beq_iff_eq.1 hpk]
          exact (dictContains_iff t k).1 hct
        rw [List.filter_cons_of_pos (by simp)]
        rw [filter_map_set_eq_nil t k v hck]
        rfl
      | false =>
        rw [if_neg (by simp)]
        rw [List.filter_cons_of_neg (by simp [hpk])]
        have hct : dictContains t k = true := by
          unfold dictContains at hc
          rw [List.any_cons, hpk, Bool.false_or] at hc
          exact hc
        exact ih hnd2 hct

theorem vaultKeys_update_map (d : Vault) (k : List Char)
    (f : CredRecord → CredRecord) :
    vaultKeys (d.map (fun p => if p.1 == k then (p.1, f p.2) else p)) = vaultKeys d := by
  unfold vaultKeys
  rw [List.map_map]
  apply List.map_congr_left
  intro p _
  by_cases hpk : p.1 = k <;> simp [hpk]

theorem takeWhile_replicate_colon (m : Nat) (t : List Char) :
    (List.replicate m '1' ++ ':' :: t).takeWhile (fun c => c == '1')
      = List.replicate m '1' := by
  induction m with
  | zero => simp [List.takeWhile]
  | succ m ih =>
    rw [List.replicate_succ, List.cons_append, List.takeWhile_cons_of_pos (by simp), ih]

theorem parseStr_enc (s rest : List Char) : parseStr (encStr s ++ rest) = some (s, rest) := by
  unfold parseStr encStr
  simp only []
  rw [List.append_assoc, List.cons_append]
  rw [takeWhile_replicate_colon s.length (s ++ rest)]
  rw [List.length_replicate]
  rw [show (List.replicate s.length '1' ++ ':' :: (s ++ rest)).drop s.length
      = ':' :: (s ++ rest) by
    have := List.drop_left (List.replicate s.length '1') (':' :: (s ++ rest))
    rwa [List.length_replicate] at this]
  simp only [List.length_append, Nat.le_add_right, if_pos, List.take_left, List.drop_left]

theorem parseEntry_enc (e : List Char × CredRecord) (rest : List Char) :
    parseEntry (encEntry e ++ rest) = some (e, rest) := by
  obtain ⟨k, s, u, p⟩ := e
  unfold parseEntry encEntry
  simp only [List.append_assoc]
  rw [parseStr_enc]
  simp only [Option.bind_eq_bind, Option.some_bind]
  rw [parseStr_enc]
  simp only [Option.some_bind]
  rw [parseStr_enc]
  simp only [Option.some_bind]
  rw [parseStr_enc]
  rfl

theorem parseEntries_enc (v : Vault) (rest : List Char) :
    parseEntries v.length ((v.map encEntry).flatten ++ rest) = some (v, rest) := by
  induction v generalizing rest with
  | nil => simp [parseEntries]
  | cons e t ih =>
    rw [List.length_cons, List.map_cons, List.flatten_cons, List.append_assoc]
    unfold parseEntries
    rw [parseEntry_enc]
    simp only [Option.bind_eq_bind, Option.some_bind]
    rw [ih rest]
    rfl

theorem json_loads_dumps (v : Vault) : json_loads (json_dumps v) = some v := by
  unfold json_loads json_dumps
  simp only []
  rw [takeWhile_replicate_colon v.length ((v.map encEntry).flatten)]
  rw [List.length_replicate]
  rw [show (List.replicate v.length '1' ++ ':' :: (v.map encEntry).flatten).drop v.length
      = ':' :: (v.map encEntry).flatten by
    have := List.drop_left (List.replicate v.length '1') (':' :: (v.map encEntry).flatten)
    rwa [List.length_replicate] at this]
  have h := parseEntries_enc v []
  rw [List.append_nil] at h
  simp [h]

theorem containsSub_nil (l : List Char) : containsSub [] l = true := by
  cases l <;> simp [containsSub, isPrefixList, List.isEmpty]

theorem dictContains_of_dictGet (d : Vault) (k : List Char) (v : CredRecord)
    (h : dictGet d k = some v) : dictContains d k = true := by
  unfold dictGet at h
  cases hf : d.find? (fun p => p.1 == k) with
  | none => rw [hf] at h; simp at h
  | some p =>
    have h1 := @List.find?_some _ (fun q => q.1 == k) p d hf
    exact List.any_eq_true.2 ⟨p, List.mem_of_find?_eq_some hf, h1⟩

theorem dictSet_length_of_contains (d : Vault) (k : List Char) (v : CredRecord)
    (h : dictContains d k = true) : (dictSet d k v).length = d.length := by
  unfold dictSet
  rw [if_pos h]
  exact List.length_map d _

/-- Claim C1: encrypting any payload and decrypting under the same key
restores it, and the full `_save_passwords` serialize-encrypt step followed
by the `_load_passwords` decrypt-deserialize step restores the credential
mapping exactly (with no error printed). -/
theorem save_load_roundtrip (k : Nat) (st : Vault) (p : List Char) :
    fernet_decrypt k (fernet_encrypt k p) = Except.ok p ∧
    _load_passwords k (_save_passwords k st WriteOutcome.ok).file = ⟨st, false⟩ := by
  constructor
  · simp [fernet_decrypt, fernet_encrypt]
  · show _load_passwords k (some (fernet_encrypt k (json_dumps st))) = ⟨st, false⟩
    simp [_load_passwords, fernet_decrypt, fernet_encrypt, json_loads_dumps st]

/-- Claim C2 counterexample: a vault file encrypted under key 1, loaded with
key 0, fails to decrypt, yet `_load_passwords` returns the empty mapping
(with only a printed message) instead of surfacing a typed `LoadError`. -/
theorem load_corrupt_counterexample :
    (fernet_decrypt 0 ⟨1, ['x']⟩).isOk = false ∧
    _load_passwords 0 (some ⟨1, ['x']⟩) = ⟨[], true⟩ := by
  constructor
  · rfl
  · rfl

/-- Claim C2 (amended): when the vault ciphertext file exists but fails to
decrypt, or its decrypted payload fails to parse, `_load_passwords` prints
an error message and returns an empty vault state; no typed `LoadError` is
surfaced to the caller. -/
theorem load_failure_returns_empty (k : Nat) (t : FernetToken) :
    ((fernet_decrypt k t).isOk = false → _load_passwords k (some t) = ⟨[], true⟩) ∧
    (∀ d, fernet_decrypt k t = Except.ok d → json_loads d = none →
      _load_passwords k (some t) = ⟨[], true⟩) := by
  constructor
  · intro h
    cases hd : fernet_decrypt k t with
    | error e => simp [_load_passwords, hd]
    | ok d => rw [hd] at h; simp [Except.isOk, Except.toBool] at h
  · intro d hd hj
    simp [_load_passwords, hd, hj]

/-- Claim C2 amended witness at the concrete corrupt file of the
counterexample's shape (key mismatch). -/
theorem load_failure_returns_empty_witness :
    _load_passwords 2 (some ⟨3, []⟩) = ⟨[], true⟩ :=
  (load_failure_returns_empty 2 ⟨3, []⟩).1 (by decide)

/-- Claim C3 counterexample: adding a record while the persistence write
fails — the caller receives no `PersistError` (`propagated = none`), only a
message is printed, and the in-memory state was mutated anyway, so the
mutation completes silently from the caller's point of view. -/
theorem persist_error_swallowed_counterexample :
    (add_password 0 [] "Gmail".toList "alice".toList (some "pw".toList)
      (fun _ => 0) (fun _ => 0) WriteOutcome.ioError).2.propagated = none ∧
    (add_password 0 [] "Gmail".toList "alice".toList (some "pw".toList)
      (fun _ => 0) (fun _ => 0) WriteOutcome.ioError).2.errorPrinted = true ∧
    (add_password 0 [] "Gmail".toList "alice".toList (some "pw".toList)
      (fun _ => 0) (fun _ => 0) WriteOutcome.ioError).1
      = [("gmail".toList, ⟨"Gmail".toList, "alice".toList, "pw".toList⟩)] := by
  refine ⟨rfl, rfl, ?_⟩
  decide

/-- Claim C3 (amended): on a persistence write failure the mutating
operations print the error and return normally — `_save_passwords` never
propagates an error for any write outcome, the failed `add_password` keeps
its in-memory mutation, and the save effect reaching `delete_password` and
`update_password` likewise carries no propagated error. -/
theorem persist_error_swallowed (k : Nat) (st : Vault) (service username pw : List Char)
    (r s : Nat → Nat) :
    (∀ w, (_save_passwords k st w).propagated = none) ∧
    (_save_passwords k st WriteOutcome.ioError).errorPrinted = true ∧
    (_save_passwords k st WriteOutcome.ioError).file = none ∧
    (add_password k st service username (some pw) r s WriteOutcome.ioError).2
      = ⟨none, true, none⟩ ∧
    (add_password k st service username (some pw) r s WriteOutcome.ioError).1
      = dictSet st (pyLower service) ⟨service, username, pw⟩ ∧
    (delete_password k st service WriteOutcome.ioError).save
      = (if dictContains st (pyLower service) then some ⟨none, true, none⟩ else none) ∧
    (update_password k st service (some pw) r s WriteOutcome.ioError).2.1
      = (if dictContains st (pyLower service) then some ⟨none, true, none⟩ else none) := by
  refine ⟨?_, rfl, rfl, rfl, rfl, ?_, ?_⟩
  · intro w
    cases w <;> rfl
  · unfold delete_password
    by_cases h : dictContains st (pyLower service) = true
    · simp [h, _save_passwords]
    · simp [h]
  · unfold update_password
    by_cases h : dictContains st (pyLower service) = true
    · simp [h, _save_passwords]
    · simp [h]

/-- Claim C4: with a stored master-hash record, `setup_master_password`
returns success and leaves the record untouched when the candidate's hash
equals the stored hash, and returns failure with the record untouched when
the hash differs. -/
theorem setup_master_password_verify (h m c : List Char) :
    (_hash_password m = h →
      setup_master_password (some h) m c = (true, some h)) ∧
    (_hash_password m ≠ h →
      setup_master_password (some h) m c = (false, some h)) := by
  constructor
  · intro he
    simp [setup_master_password, he]
  · intro hne
    simp [setup_master_password, hne]

set_option maxRecDepth 40000

/-- Claim C4 witness: a stored hash of the password `correct`; verifying
`correct` unlocks, verifying `wrong` is rejected, and in both cases the
stored record is unchanged (the hashes are computed by the executable
SHA-256 model). -/
theorem setup_master_password_verify_witness :
    setup_master_password (some (_hash_password "correct".toList)) "correct".toList
      "x".toList = (true, some (_hash_password "correct".toList)) ∧
    setup_master_password (some (_hash_password "correct".toList)) "wrong".toList
      "x".toList = (false, some (_hash_password "correct".toList)) :=
  ⟨(setup_master_password_verify (_hash_password "correct".toList) "correct".toList
      "x".toList).1 rfl,
   (setup_master_password_verify (_hash_password "correct".toList) "wrong".toList
      "x".toList).2 (by decide)⟩

/-- Claim C6: for every length at least the number of mandatory classes and
every sequence of secure-random draws, the generated password has exactly
`length` characters and contains at least one lowercase letter, one
uppercase letter, a digit when numbers are enabled and a punctuation symbol
when symbols are enabled. -/
theorem generate_password_composition (length : Nat) (us un : Bool) (r s : Nat → Nat)
    (h : mandatoryCount us un ≤ length) :
    (generate_password length us un r s).length = length ∧
    (∃ c ∈ generate_password length us un r s, c ∈ ascii_lowercase) ∧
    (∃ c ∈ generate_password length us un r s, c ∈ ascii_uppercase) ∧
    (un = true → ∃ c ∈ generate_password length us un r s, c ∈ digits) ∧
    (us = true → ∃ c ∈ generate_password length us un r s, c ∈ punct_chars) := by
  refine ⟨?_, ?_, ?_, ?_, ?_⟩
  · rw [generate_password_length]
    omega
  · exact ⟨pyChoice ascii_lowercase (r 2),
      mem_generate_of_mem_mandatory length us un r s _ (lower_mem_mandatoryChars us un r),
      pyChoice_mem _ _ (by decide)⟩
  · exact ⟨pyChoice ascii_uppercase (r 3),
      mem_generate_of_mem_mandatory length us un r s _ (upper_mem_mandatoryChars us un r),
      pyChoice_mem _ _ (by decide)⟩
  · intro hun
    subst hun
    exact ⟨pyChoice digits (r 0),
      mem_generate_of_mem_mandatory length us true r s _ (digit_mem_mandatoryChars us r),
      pyChoice_mem _ _ (by decide)⟩
  · intro hus
    subst hus
    exact ⟨pyChoice punct_chars (r 1),
      mem_generate_of_mem_mandatory length true un r s _ (symbol_mem_mandatoryChars un r),
      pyChoice_mem _ _ (by decide)⟩

/-- Claim C6 witness at length 12 with symbols and numbers enabled and the
all-zero draw streams. -/
theorem generate_password_composition_witness :
    mandatoryCount true true ≤ 12 ∧
    ((generate_password 12 true true (fun _ => 0) (fun _ => 0)).length = 12 ∧
    (∃ c ∈ generate_password 12 true true (fun _ => 0) (fun _ => 0), c ∈ ascii_lowercase) ∧
    (∃ c ∈ generate_password 12 true true (fun _ => 0) (fun _ => 0), c ∈ ascii_uppercase) ∧
    (true = true → ∃ c ∈ generate_password 12 true true (fun _ => 0) (fun _ => 0), c ∈ digits) ∧
    (true = true → ∃ c ∈ generate_password 12 true true (fun _ => 0) (fun _ => 0), c ∈ punct_chars)) :=
  ⟨by decide, generate_password_composition 12 true true (fun _ => 0) (fun _ => 0) (by decide)⟩

/-- Claim C7 counterexample: length 3 with both optional classes enabled is
below the four mandatory classes, yet `generate_password` does not fail with
any `InvalidLength` error — it returns a 4-character string (the source has
no length validation at all). -/
theorem invalid_length_counterexample :
    3 < mandatoryCount true true ∧
    (generate_password 3 true true (fun _ => 0) (fun _ => 0)).length = 4 := by
  constructor
  · decide
  · decide

/-- Claim C7 (amended): for every length strictly smaller than the number of
mandatory character classes requested, `generate_password` does not fail:
it returns a string of exactly `mandatoryCount` characters (the mandatory
draws alone; the Python fill range `length - len(password)` is empty). -/
theorem generate_password_short_length (length : Nat) (us un : Bool) (r s : Nat → Nat)
    (h : length < mandatoryCount us un) :
    (generate_password length us un r s).length = mandatoryCount us un := by
  rw [generate_password_length]
  omega

/-- Claim C7 amended witness at the counterexample's input. -/
theorem generate_password_short_length_witness :
    3 < mandatoryCount true true ∧
    (generate_password 3 true true (fun _ => 0) (fun _ => 0)).length
      = mandatoryCount true true :=
  ⟨by decide, generate_password_short_length 3 true true (fun _ => 0) (fun _ => 0) (by decide)⟩

/-- Claim C10: every character of a generated password belongs to the
enabled character universe (`chars` in the source): it is an ASCII letter,
or a digit only when numbers are enabled, or a punctuation symbol only when
symbols are enabled — a disabled class never appears. -/
theorem generate_password_allowed_universe (length : Nat) (us un : Bool) (r s : Nat → Nat) :
    (∀ c ∈ generate_password length us un r s, c ∈ passwordChars us un) ∧
    (un = false → ∀ c ∈ generate_password length us un r s, c ∉ digits) ∧
    (us = false → ∀ c ∈ generate_password length us un r s, c ∉ punct_chars) := by
  refine ⟨generate_password_subset length us un r s, ?_, ?_⟩
  · intro hun c hc
    subst hun
    exact chars_no_digits us c (generate_password_subset length us false r s c hc)
  · intro hus c hc
    subst hus
    exact chars_no_punct un c (generate_password_subset length false un r s c hc)

/-- Claim C10 witness: with both optional classes disabled, the character
`A` of the concrete output contains no digit and no punctuation. -/
theorem generate_password_allowed_universe_witness :
    'A' ∈ generate_password 5 false false (fun _ => 0) (fun _ => 0) ∧
    'A' ∉ digits ∧ 'A' ∉ punct_chars :=
  ⟨by decide,
   (generate_password_allowed_universe 5 false false (fun _ => 0) (fun _ => 0)).2.1 rfl
     'A' (by decide),
   (generate_password_allowed_universe 5 false false (fun _ => 0) (fun _ => 0)).2.2 rfl
     'A' (by decide)⟩

/-- Claim C5: the vault keeps at most one record per lowercased service key
(no-duplicate-keys invariant, preserved by add, delete and update), and
adding a record whose service differs only in case from an existing record
overwrites it: lookup under either normalized key yields the second call's
record, exactly one entry carries the normalized key, and the vault did not
grow. -/
theorem add_password_case_insensitive_overwrite (k : Nat) (st : Vault)
    (s1 u1 p1 s2 u2 p2 : List Char) (r s : Nat → Nat) (w : WriteOutcome)
    (hnd : (vaultKeys st).Nodup) (hcase : pyLower s1 = pyLower s2) :
    (vaultKeys (add_password k st s1 u1 (some p1) r s w).1).Nodup ∧
    (vaultKeys (add_password k (add_password k st s1 u1 (some p1) r s w).1
      s2 u2 (some p2) r s w).1).Nodup ∧
    dictGet (add_password k (add_password k st s1 u1 (some p1) r s w).1
      s2 u2 (some p2) r s w).1 (pyLower s2) = some ⟨s2, u2, p2⟩ ∧
    dictGet (add_password k (add_password k st s1 u1 (some p1) r s w).1
      s2 u2 (some p2) r s w).1 (pyLower s1) = some ⟨s2, u2, p2⟩ ∧
    ((add_password k (add_password k st s1 u1 (some p1) r s w).1
      s2 u2 (some p2) r s w).1.filter (fun p => p.1 == pyLower s2)).length = 1 ∧
    (add_password k (add_password k st s1 u1 (some p1) r s w).1
      s2 u2 (some p2) r s w).1.length = (add_password k st s1 u1 (some p1) r s w).1.length ∧
    (vaultKeys (delete_password k st s1 w).passwords).Nodup ∧
    (vaultKeys (update_password k st s1 (some p1) r s w).1).Nodup := by
  have e1 : (add_password k st s1 u1 (some p1) r s w).1
      = dictSet st (pyLower s1) ⟨s1, u1, p1⟩ := rfl
  have e2 : (add_password k (add_password k st s1 u1 (some p1) r s w).1
      s2 u2 (some p2) r s w).1
      = dictSet (dictSet st (pyLower s1) ⟨s1, u1, p1⟩) (pyLower s2) ⟨s2, u2, p2⟩ := rfl
  have h1 : (vaultKeys (dictSet st (pyLower s1) ⟨s1, u1, p1⟩)).Nodup :=
    nodup_keys_dictSet st (pyLower s1) ⟨s1, u1, p1⟩ hnd
  have hc1 : dictContains (dictSet st (pyLower s1) ⟨s1, u1, p1⟩) (pyLower s2) = true := by
    rw [← hcase]
    exact dictContains_of_dictGet _ _ _ (dictGet_dictSet_self st (pyLower s1) ⟨s1, u1, p1⟩)
  refine ⟨?_, ?_, ?_, ?_, ?_, ?_, ?_, ?_⟩
  · rw [e1]
    exact h1
  · rw [e2]
    exact nodup_keys_dictSet _ (pyLower s2) ⟨s2, u2, p2⟩ h1
  · rw [e2]
    exact dictGet_dictSet_self _ (pyLower s2) ⟨s2, u2, p2⟩
  · rw [e2, hcase]
    exact dictGet_dictSet_self _ (pyLower s2) ⟨s2, u2, p2⟩
  · rw [e2]
    exact filter_key_dictSet_length _ (pyLower s2) ⟨s2, u2, p2⟩ h1
  · rw [e2, e1]
    exact dictSet_length_of_contains _ (pyLower s2) ⟨s2, u2, p2⟩ hc1
  · unfold delete_password
    by_cases h : dictContains st (pyLower s1) = true
    · simp only [h, if_true]
      exact nodup_keys_dictDel st (pyLower s1) hnd
    · simp only [h, if_false]
      exact hnd
  · unfold update_password
    by_cases h : dictContains st (pyLower s1) = true
    · simp only [h, if_true]
      exact (vaultKeys_update_map st (pyLower s1)
        (fun rec => { rec with password := p1 })) ▸ hnd
    · simp only [h, if_false]
      exact hnd

/-- Claim C5 witness: adding `Gmail` then `gmail` to the empty vault leaves
the second record under the shared normalized key. -/
theorem add_password_case_insensitive_overwrite_witness :
    dictGet (add_password 0 (add_password 0 [] "Gmail".toList "u1".toList
      (some "p1".toList) (fun _ => 0) (fun _ => 0) WriteOutcome.ok).1
      "gmail".toList "u2".toList (some "p2".toList) (fun _ => 0) (fun _ => 0)
      WriteOutcome.ok).1 (pyLower "Gmail".toList)
      = some ⟨"gmail".toList, "u2".toList, "p2".toList⟩ :=
  (add_password_case_insensitive_overwrite 0 [] "Gmail".toList "u1".toList "p1".toList
    "gmail".toList "u2".toList "p2".toList (fun _ => 0) (fun _ => 0) WriteOutcome.ok
    (by decide) (by decide)).2.2.2.1

/-- Claim C8: deleting an existing service removes the record under the
lowercased key and persists the new state, after which a lookup is absent
and a second delete takes the `No password found` branch (the source's
report of the spec's `NotFoundError`: `found = false`, no save, no state
change); deleting an absent service takes that branch immediately. -/
theorem delete_password_spec (k : Nat) (st : Vault) (service : List Char) (w : WriteOutcome) :
    (dictContains st (pyLower service) = true →
      (delete_password k st service w).passwords = dictDel st (pyLower service) ∧
      (delete_password k st service w).found = true ∧
      (delete_password k st service w).save
        = some (_save_passwords k (dictDel st (pyLower service)) w) ∧
      get_password (delete_password k st service w).passwords service = none ∧
      (delete_password k (delete_password k st service w).passwords service w).found
        = false ∧
      (delete_password k (delete_password k st service w).passwords service w).passwords
        = (delete_password k st service w).passwords ∧
      (delete_password k (delete_password k st service w).passwords service w).save
        = none) ∧
    (dictContains st (pyLower service) = false →
      (delete_password k st service w).passwords = st ∧
      (delete_password k st service w).found = false ∧
      (delete_password k st service w).save = none) := by
  constructor
  · intro h
    have e1 : (delete_password k st service w).passwords = dictDel st (pyLower service) := by
      unfold delete_password
      simp only [h, if_true]
    have h2 : dictContains (dictDel st (pyLower service)) (pyLower service) = false :=
      dictContains_dictDel_self st (pyLower service)
    have e2 : delete_password k (dictDel st (pyLower service)) service w
        = ⟨dictDel st (pyLower service), none, false⟩ := by
      unfold delete_password
      simp only [h2, Bool.false_eq_true, if_false]
    refine ⟨e1, ?_, ?_, ?_, ?_, ?_, ?_⟩
    · unfold delete_password
      simp only [h, if_true]
    · unfold delete_password
      simp only [h, if_true]
    · rw [e1]
      exact dictGet_dictDel_self st (pyLower service)
    · rw [e1, e2]
    · rw [e1, e2]
    · rw [e1, e2]
  · intro h
    unfold delete_password
    simp [h]

/-- Claim C8 witness: a vault holding `gmail`; deleting `Gmail` succeeds and
a second delete reports not-found without changing the state. -/
theorem delete_password_spec_witness :
    (delete_password 0 [("gmail".toList, ⟨"Gmail".toList, "u".toList, "p".toList⟩)]
      "Gmail".toList WriteOutcome.ok).found = true ∧
    get_password (delete_password 0
      [("gmail".toList, ⟨"Gmail".toList, "u".toList, "p".toList⟩)]
      "Gmail".toList WriteOutcome.ok).passwords "Gmail".toList = none ∧
    (delete_password 0 (delete_password 0
      [("gmail".toList, ⟨"Gmail".toList, "u".toList, "p".toList⟩)]
      "Gmail".toList WriteOutcome.ok).passwords "Gmail".toList WriteOutcome.ok).found
      = false :=
  ⟨((delete_password_spec 0 [("gmail".toList, ⟨"Gmail".toList, "u".toList, "p".toList⟩)]
      "Gmail".toList WriteOutcome.ok).1 (by decide)).2.1,
   ((delete_password_spec 0 [("gmail".toList, ⟨"Gmail".toList, "u".toList, "p".toList⟩)]
      "Gmail".toList WriteOutcome.ok).1 (by decide)).2.2.2.1,
   ((delete_password_spec 0 [("gmail".toList, ⟨"Gmail".toList, "u".toList, "p".toList⟩)]
      "Gmail".toList WriteOutcome.ok).1 (by decide)).2.2.2.2.1⟩

/-- Claim C9: `search` returns exactly the records whose normalized service
key or case-insensitively compared username contains the query as a
substring, as a filter of the insertion-ordered mapping (hence in insertion
order, a sublist of the vault); the empty query matches every record and a
query matching nothing yields the empty result. -/
theorem search_spec (st : Vault) (q : List Char) :
    search st q = st.filter (matchesQuery q) ∧
    (∀ p, p ∈ search st q ↔ p ∈ st ∧ matchesQuery q p = true) ∧
    (search st q).Sublist st ∧
    search st [] = st ∧
    ((∀ p ∈ st, matchesQuery q p = false) → search st q = []) := by
  have e : search st q = st.filter (matchesQuery q) := rfl
  refine ⟨e, ?_, ?_, ?_, ?_⟩
  · intro p
    rw [e, List.mem_filter]
  · rw [e]
    exact List.filter_sublist st
  · have e2 : search st [] = st.filter (matchesQuery []) := rfl
    rw [e2, List.filter_eq_self]
    intro p _
    unfold matchesQuery
    rw [show pyLower [] = [] from rfl, containsSub_nil]
    simp
  · intro hall
    rw [e, List.filter_eq_nil_iff]
    intro p hp
    simp [hall p hp]

/-- Claim C9 witness: a query matching no stored record yields the empty
result on a concrete vault. -/
theorem search_spec_witness :
    search [("github".toList, ⟨"GitHub".toList, "alice".toList, "p".toList⟩)]
      "zzz".toList = [] :=
  (search_spec [("github".toList, ⟨"GitHub".toList, "alice".toList, "p".toList⟩)]
    "zzz".toList).2.2.2.2 (by decide)
